import Mathlib

/-!
Shallow embedding of the order edit / change-control engine of the
NodeJs_GraphQL_Sample repository (src/order/edit.ts, src/order/edit-participants.ts,
src/order/create.ts), together with proofs checking the natural-language
specification's claims against it.

Conventions of the embedding:
* entity identifiers, status identifiers and timestamps are `Nat`;
* JSON / SQL nullable columns are `Option _`; SQL `x != v OR x IS NULL`
  over a nullable column is `x ≠ some v` on an `Option`;
* the relational store touched by `editOrder` is an explicit `DB` record and
  every `updateOrder` call is additionally logged in `DB.updateLog`, so that
  "which direct mutations were applied" is observable;
* collaborators that live outside the repository snapshot (resetOrder,
  checkReadyForBookingResolver) are modelled from the spec and say so in
  their doc comments.
-/

/-- An order participant row, as used by the participant guard and the
change-review seeding: `(userId, approvalIsRequired)`
(src/order/edit-participants.ts lines 100-107). -/
structure Participant where
  userId : Nat
  approvalIsRequired : Bool
deriving DecidableEq, Repr

/-- Loop body of `isAllowedToEditParticipants`
(src/order/edit-participants.ts lines 112-138).  The accumulator is the pair
`(isSelf, countModChangeControllers)`.  For a current required approver that is
the acting user both counters are bumped; for any other current required
approver the mutation counter takes one increment per proposed row for that
user whose `approvalIsRequired` flag differs, plus one increment when the user
is absent from the proposed list entirely. -/
def guardStep (proposed : List Participant) (thisUserId : Nat)
    (acc : Nat × Nat) (c : Participant) : Nat × Nat :=
  if c.approvalIsRequired then
    if c.userId = thisUserId then (acc.1 + 1, acc.2 + 1)
    else
      let mods := (proposed.filter
        (fun p => p.userId == c.userId && p.approvalIsRequired != c.approvalIsRequired)).length
      let foundController := proposed.any (fun p => p.userId == c.userId)
      (acc.1, acc.2 + mods + (if foundController then 0 else 1))
  else acc

/-- `isAllowedToEditParticipants(currentParticipants, participants, thisUser)`
(src/order/edit-participants.ts lines 100-153): reject when the acting user is
not a current required approver yet controller mutations happened, or when more
than one controller mutation happened; allow otherwise. -/
def isAllowedToEditParticipants (currentParticipants proposed : List Participant)
    (thisUserId : Nat) : Bool :=
  let counts := currentParticipants.foldl (guardStep proposed thisUserId) (0, 0)
  if counts.1 = 0 ∧ counts.2 > 0 then false
  else if counts.2 > 1 then false
  else true

/-- Spec-side counter: how many current required-approver rows belong to the
acting user ("self-affected count", spec §4.5). -/
def selfAffectedCount (current : List Participant) (uid : Nat) : Nat :=
  (current.filter (fun c => c.approvalIsRequired && c.userId == uid)).length

/-- Spec-side counter: the controller-mutation contribution of one current
participant row (spec §4.5): a required self row counts 1; a required non-self
row counts one per proposed row for that user with a flipped flag, plus one if
the user disappeared from the proposed list; a non-required row counts 0. -/
def mutationContribution (proposed : List Participant) (uid : Nat)
    (c : Participant) : Nat :=
  if c.approvalIsRequired then
    if c.userId = uid then 1
    else
      (proposed.filter
        (fun p => p.userId == c.userId && p.approvalIsRequired != c.approvalIsRequired)).length
        + (if proposed.any (fun p => p.userId == c.userId) then 0 else 1)
  else 0

/-- Spec-side counter: total number of controller mutations of an edit
(spec §4.5). -/
def controllerMutationCount (current proposed : List Participant) (uid : Nat) : Nat :=
  (current.map (mutationContribution proposed uid)).sum

/-- One fold step of the guard equals the two spec-side per-row counters. -/
theorem guardStep_eq (proposed : List Participant) (uid : Nat)
    (acc : Nat × Nat) (c : Participant) :
    guardStep proposed uid acc c =
      (acc.1 + (if c.approvalIsRequired && c.userId == uid then 1 else 0),
       acc.2 + mutationContribution proposed uid c) := by
  unfold guardStep mutationContribution
  by_cases hreq : c.approvalIsRequired <;> simp [hreq]
  by_cases hself : c.userId = uid <;> simp [hself]
  ring

/-- The guard's fold computes exactly `selfAffectedCount` and
`controllerMutationCount`. -/
theorem guard_fold_eq (current proposed : List Participant) (uid : Nat) :
    ∀ a b : Nat,
      current.foldl (guardStep proposed uid) (a, b) =
        (a + selfAffectedCount current uid, b + controllerMutationCount current proposed uid) := by
  induction current with
  | nil => intro a b; simp [selfAffectedCount, controllerMutationCount]
  | cons c cs ih =>
      intro a b
      rw [List.foldl_cons, guardStep_eq, ih]
      unfold selfAffectedCount controllerMutationCount
      by_cases h : c.approvalIsRequired && c.userId == uid <;>
        simp [h, List.filter_cons, List.map_cons] <;> omega

/-- The guard decision, rewritten through the two spec-side counters. -/
theorem isAllowed_eq_counts (current proposed : List Participant) (uid : Nat) :
    isAllowedToEditParticipants current proposed uid =
      if (selfAffectedCount current uid = 0 ∧ 0 < controllerMutationCount current proposed uid)
          ∨ 1 < controllerMutationCount current proposed uid
      then false else true := by
  unfold isAllowedToEditParticipants
  rw [guard_fold_eq current proposed uid 0 0]
  simp only [Nat.zero_add]
  split_ifs <;> first | rfl | omega

/-- A sum of 0/1 indicators over a list is the length of the filtered list. -/
theorem sum_indicator_eq_filterLength (p : Participant → Bool) (l : List Participant) :
    (l.map (fun c => if p c then 1 else 0)).sum = (l.filter p).length := by
  induction l with
  | nil => simp
  | cons a as ih => by_cases h : p a <;> simp [h, ih, List.filter_cons, Nat.add_comm]

/-- If the userIds of a list are pairwise distinct and every element satisfying
`p` shares `e`'s userId, then the `p`-filtered list has exactly one element. -/
theorem filterLength_eq_one (p : Participant → Bool) (l : List Participant) (e : Participant)
    (hnd : (l.map (fun q => q.userId)).Nodup) (he : e ∈ l) (hpe : p e = true)
    (hid : ∀ x ∈ l, p x = true → x.userId = e.userId) :
    (l.filter p).length = 1 := by
  induction l with
  | nil => cases he
  | cons a as ih =>
      simp only [List.map_cons, List.nodup_cons] at hnd
      by_cases hpa : p a = true
      · have haid : a.userId = e.userId := hid a (List.mem_cons_self a as) hpa
        have hnone : as.filter p = [] := by
          rw [List.filter_eq_nil_iff]
          intro x hx hpx
          have : x.userId = e.userId := hid x (List.mem_cons_of_mem a hx) (by simpa using hpx)
          exact hnd.1 (by simpa [haid, this] using List.mem_map_of_mem (fun q => q.userId) hx)
        simp [List.filter_cons, hpa, hnone]
      · have hea : e ≠ a := fun h => hpa (h ▸ hpe)
        have he' : e ∈ as := by
          rcases List.mem_cons.mp he with h | h
          · exact absurd h hea
          · exact h
        have := ih hnd.2 he' (fun x hx hpx => hid x (List.mem_cons_of_mem a hx) hpx)
        simp [List.filter_cons, hpa, this]

/-- Two distinct members of a list each contribute to the sum of a `Nat`-valued
map over it. -/
theorem two_members_le_sum (f : Participant → Nat) (l : List Participant)
    (a b : Participant) (ha : a ∈ l) (hb : b ∈ l) (hne : a ≠ b) :
    f a + f b ≤ (l.map f).sum := by
  induction l with
  | nil => cases ha
  | cons x xs ih =>
      rcases List.mem_cons.mp ha with rfl | ha'
      · have hb' : b ∈ xs := by
          rcases List.mem_cons.mp hb with h | h
          · exact absurd h.symm hne
          · exact h
        have : f b ≤ (xs.map f).sum :=
          List.single_le_sum (fun n _ => Nat.zero_le n) _ (List.mem_map_of_mem f hb')
        simp only [List.map_cons, List.sum_cons]
        omega
      · rcases List.mem_cons.mp hb with rfl | hb'
        · have : f a ≤ (xs.map f).sum :=
            List.single_le_sum (fun n _ => Nat.zero_le n) _ (List.mem_map_of_mem f ha')
          simp only [List.map_cons, List.sum_cons]
          omega
        · have := ih ha' hb'
          simp only [List.map_cons, List.sum_cons]
          omega

/-- The edit that flips only the acting user's own `approvalIsRequired` flag,
leaving every other participant row untouched. -/
def toggleSelfFlag (uid : Nat) (c : Participant) : Participant :=
  if c.userId == uid then { c with approvalIsRequired := !c.approvalIsRequired } else c

theorem toggleSelfFlag_userId (uid : Nat) (c : Participant) :
    (toggleSelfFlag uid c).userId = c.userId := by
  unfold toggleSelfFlag
  split <;> rfl

/-- Under distinct userIds, a self-flag-only edit has contribution 1 at the
acting user's required row and 0 everywhere else. -/
theorem contribution_toggleSelfFlag (current : List Participant) (uid : Nat)
    (hnd : (current.map (fun q => q.userId)).Nodup) :
    ∀ c ∈ current,
      mutationContribution (current.map (toggleSelfFlag uid)) uid c =
        if c.approvalIsRequired && c.userId == uid then 1 else 0 := by
  intro c hc
  unfold mutationContribution
  by_cases hreq : c.approvalIsRequired
  · by_cases hself : c.userId = uid
    · simp [hreq, hself]
    · have hfound : (current.map (toggleSelfFlag uid)).any (fun p => p.userId == c.userId) = true := by
        rw [List.any_eq_true]
        exact ⟨toggleSelfFlag uid c, List.mem_map_of_mem _ hc, by simp [toggleSelfFlag_userId]⟩
      have hmods : (current.map (toggleSelfFlag uid)).filter
          (fun p => p.userId == c.userId && p.approvalIsRequired != c.approvalIsRequired) = [] := by
        rw [List.filter_eq_nil_iff]
        intro p hp
        rcases List.mem_map.mp hp with ⟨x, hx, rfl⟩
        by_cases hxc : (toggleSelfFlag uid x).userId = c.userId
        · have hxc' : x.userId = c.userId := by rwa [toggleSelfFlag_userId] at hxc
          have hx_eq : x = c := List.inj_on_of_nodup_map hnd hx hc hxc'
          subst hx_eq
          have hfix : toggleSelfFlag uid x = x := by
            unfold toggleSelfFlag
            simp [hself]
          simp [hfix]
        · simp [hxc]
      rw [hmods, hfound]
      simp [hreq, hself]
  · simp [hreq]

/-- C6: `isAllowedToEditParticipants` returns false exactly when controller
mutations occurred with a zero self-affected count, or when more than one
controller mutation occurred; in particular a required approver flipping only
their own `approvalIsRequired` flag is allowed, and removing a non-self
required approver from the proposed list is always rejected by the guard
(the admin/staff/integration bypass lives in the caller,
src/order/edit-participants.ts lines 48-61). -/
theorem participant_guard_characterization :
    (∀ current proposed : List Participant, ∀ uid : Nat,
        (isAllowedToEditParticipants current proposed uid = false ↔
          (0 < controllerMutationCount current proposed uid ∧ selfAffectedCount current uid = 0)
            ∨ 1 < controllerMutationCount current proposed uid)) ∧
    (∀ current : List Participant, ∀ uid : Nat,
        (current.map (fun q => q.userId)).Nodup →
        (⟨uid, true⟩ : Participant) ∈ current →
        isAllowedToEditParticipants current (current.map (toggleSelfFlag uid)) uid = true) ∧
    (∀ current proposed : List Participant, ∀ uid : Nat, ∀ c : Participant, c ∈ current →
        c.approvalIsRequired = true → c.userId ≠ uid →
        (∀ p ∈ proposed, p.userId ≠ c.userId) →
        isAllowedToEditParticipants current proposed uid = false) := by
  refine ⟨?_, ?_, ?_⟩
  · intro current proposed uid
    rw [isAllowed_eq_counts]
    split_ifs with h
    · simp only [true_iff]
      tauto
    · simp only [false_iff]
      tauto
  · intro current uid hnd hmem
    have hself1 : selfAffectedCount current uid = 1 := by
      unfold selfAffectedCount
      exact filterLength_eq_one _ current ⟨uid, true⟩ hnd hmem (by simp)
        (fun x _ hx => by
          simp only [Bool.and_eq_true, beq_iff_eq] at hx
          exact hx.2)
    have hcnt1 : controllerMutationCount current (current.map (toggleSelfFlag uid)) uid = 1 := by
      unfold controllerMutationCount
      rw [List.map_congr_left (contribution_toggleSelfFlag current uid hnd)]
      rw [sum_indicator_eq_filterLength]
      exact hself1
    rw [isAllowed_eq_counts, hself1, hcnt1]
    norm_num
  · intro current proposed uid c hc hreq hnotself habsent
    have hcontrib : 1 ≤ mutationContribution proposed uid c := by
      unfold mutationContribution
      have hfound : proposed.any (fun p => p.userId == c.userId) = false := by
        rw [List.any_eq_false]
        intro p hp
        simpa using habsent p hp
      simp [hreq, hnotself, hfound]
    rw [isAllowed_eq_counts]
    by_cases hS : selfAffectedCount current uid = 0
    · have : 0 < controllerMutationCount current proposed uid := by
        have := List.single_le_sum (fun n _ => Nat.zero_le n)
          (mutationContribution proposed uid c)
          (List.mem_map_of_mem (mutationContribution proposed uid) hc)
        unfold controllerMutationCount
        omega
      simp [hS, this]
    · have hne : current.filter (fun c => c.approvalIsRequired && c.userId == uid) ≠ [] := by
        intro hnil
        apply hS
        unfold selfAffectedCount
        rw [hnil]
        rfl
      rcases List.exists_mem_of_ne_nil _ hne with ⟨s, hs⟩
      rcases List.mem_filter.mp hs with ⟨hsmem, hsp⟩
      simp only [Bool.and_eq_true, beq_iff_eq] at hsp
      have hsc : s ≠ c := fun h => hnotself (h ▸ hsp.2)
      have hscontrib : mutationContribution proposed uid s = 1 := by
        unfold mutationContribution
        simp [hsp.1, hsp.2]
      have h2 : 1 < controllerMutationCount current proposed uid := by
        have := two_members_le_sum (mutationContribution proposed uid) current s c hsmem hc hsc
        unfold controllerMutationCount
        omega
      simp [h2]

/-- C6 witness: a single required approver (user 1) flipping their own flag is
allowed. -/
theorem participant_guard_characterization_witness :
    isAllowedToEditParticipants [⟨1, true⟩, ⟨2, false⟩]
      ([⟨1, true⟩, ⟨2, false⟩].map (toggleSelfFlag 1)) 1 = true :=
  participant_guard_characterization.2.1 [⟨1, true⟩, ⟨2, false⟩] 1 (by decide) (by decide)

/-- Field assignments of an edit payload or of the stored order: association
list from field name to value. -/
abbrev Fields := List (String × Nat)

/-- The purchase-order preferences consulted by `editOrder`
(src/order/edit.ts lines 279-307): the change-control enable flag (a JSON
value, absent unless configured) and the optional override of the
change-control exclusion list. -/
structure POPrefs where
  enableChangeControl : Option Bool
  excludeChangeControl : Option (List String)
deriving DecidableEq, Repr

/-- The `lineItems` part of an edit payload: the four optional instruction
shapes (src/order/edit.ts lines 428-433).  `none` means the key is absent. -/
structure LineItemsInput where
  addLineItems : Option (List Nat) := none
  editLineItems : Option (List Nat) := none
  removeLineItems : Option (List Nat) := none
  replaceLineItems : Option (List Nat) := none
deriving DecidableEq, Repr

/-- lodash `isEmpty(lineItems)` on the payload object: no instruction key is
present. -/
def LineItemsInput.isEmptyInput (li : LineItemsInput) : Bool :=
  li.addLineItems.isNone && li.editLineItems.isNone &&
    li.removeLineItems.isNone && li.replaceLineItems.isNone

/-- `checkLineItems` (src/order/edit.ts lines 604-630): a `replace` combined
with `add`/`edit`/`remove` is rejected, and a line-item id listed both in
`edit` and in `remove` is rejected.  (The trailing cache invalidation touches
no persistent state and is not part of the modelled store.) -/
def checkLineItems (li : LineItemsInput) : Except String Unit :=
  if li.replaceLineItems.isSome &&
      (li.addLineItems.isSome || li.editLineItems.isSome || li.removeLineItems.isSome) then
    Except.error "You cannot replace and add, edit or remove line items."
  else
    match li.editLineItems, li.removeLineItems with
    | some es, some rs =>
        if es.any (fun e => rs.contains e) then
          Except.error "You cannot edit and remove the same line item."
        else Except.ok ()
    | _, _ => Except.ok ()

/-- The status-id lookups used by the modelled code paths
(`getStatusId`, `getChangeStatusId`, `lookupByValueLoader`). -/
structure StatusIds where
  receivedId : Nat
  acceptedId : Nat
  canceledId : Nat
  rejectedId : Nat
  proposedChangeId : Nat
  approvedChangeId : Nat
  bookingCanceledId : Nat
  shipmentCanceledId : Nat
deriving DecidableEq, Repr

/-- A fulfillment-rollup row (view joining orders to booking requests). -/
structure FulfillmentRollup where
  orderId : Nat
  bookingRequestId : Nat
deriving DecidableEq, Repr

/-- A booking-request record as reached through the booking-request loader. -/
structure BookingRequestRec where
  id : Nat
  bookingStatusId : Nat
deriving DecidableEq, Repr

/-- A document-store generic line item (postgres `LineItem`): `target_id`
linkage, JSON `fields.orderId` and `fields.shipmentStatusId`, soft-delete
timestamp. -/
structure PgLineItem where
  targetId : Nat
  orderId : Option Nat
  shipmentStatusId : Option Nat
  deletedAt : Option Nat
deriving DecidableEq, Repr

/-- A booking confirmation (postgres): JSON `fields.statusId` plus created/
updated timestamps. -/
structure BookingConfirmationRec where
  id : Nat
  statusId : Option Nat
  createdAt : Nat
  updatedAt : Nat
deriving DecidableEq, Repr

/-- A shipment (postgres): created/updated timestamps; its status lives on the
linking line item's JSON fields. -/
structure ShipmentRec where
  id : Nat
  createdAt : Nat
  updatedAt : Nat
deriving DecidableEq, Repr

/-- An order change request row (src/order/edit.ts lines 444-464).  The
captured shipping fields and line-item instructions stand for the generated
description and the change-request line-item deltas, whose generators are
external collaborators. -/
structure ChangeRequest where
  id : Nat
  orderId : Nat
  entityId : Nat
  changeStatusId : Nat
  changeRequestNumber : Nat
  shippingCaptured : Fields
  lineItemsCaptured : LineItemsInput
  note : String
deriving DecidableEq, Repr

/-- An order change review row (src/order/edit.ts lines 493-508). -/
structure Review where
  orderChangeRequestId : Nat
  entityId : Nat
  reviewDate : Option Nat
  changeStatusId : Nat
deriving DecidableEq, Repr

/-- The order row: identity, buyer, status, booking-ready flag and the generic
field assignments that `updateOrder` persists. -/
structure Order where
  id : Nat
  buyerId : Nat
  orderStatusId : Nat
  isReadyForBooking : Bool
  fields : Fields
deriving DecidableEq, Repr

/-- One logged `updateOrder` persistence: a status write, a booking-ready
write, or an application of payload field values. -/
inductive UpdateOp where
  | setStatus (s : Nat)
  | setReady (b : Bool)
  | applyF (fs : Fields)
deriving DecidableEq, Repr

/-- Does a logged update apply payload field values? -/
def UpdateOp.isApplyF : UpdateOp → Bool
  | UpdateOp.applyF _ => true
  | _ => false

/-- The modelled relational/document state reachable from `editOrder`: the
target order, its change requests / reviews / participants / line items, the
cross-store records consulted by `canOrderBeCancelled`, and the log of
`updateOrder` calls. -/
structure DB where
  order : Order
  changeRequests : List ChangeRequest
  reviews : List Review
  participants : List Participant
  lineItemIds : List Nat
  rollups : List FulfillmentRollup
  bookingRequests : List BookingRequestRec
  pgLineItems : List PgLineItem
  bookingConfirmations : List BookingConfirmationRec
  shipments : List ShipmentRec
  updateLog : List UpdateOp
deriving DecidableEq, Repr

/-- Request context bits consumed by `editOrder`: acting user/org, the results
of the external `isVisible` and `isOrderEditable` guards, the external
`orderReadyForBookingErrors` result, and the abstracted non-change-control
preconditions of the ready-for-booking recomputation. -/
structure Ctx where
  userId : Nat
  orgId : Nat
  isVisibleOk : Bool
  isEditableOk : Bool
  readyErrors : List String
  bookingPrecondsOk : Bool
deriving DecidableEq, Repr

/-- The booking requests linked to an order: rollup rows for the order give
the ids, which the loader resolves to records (src/order/edit.ts lines
674-685). -/
def loadedBookingRequests (db : DB) (orderId : Nat) : List BookingRequestRec :=
  ((db.rollups.filter (fun f => f.orderId == orderId)).map
      (fun f => f.bookingRequestId)).filterMap
    (fun i => db.bookingRequests.find? (fun br => br.id == i))

/-- The inner join used by the booking-confirmation branch: a live
(undeleted) generic line item pointing at the target and carrying the order id
(src/order/edit.ts lines 702-716). -/
def liveLinkExists (db : DB) (orderId targetId : Nat) : Bool :=
  db.pgLineItems.any (fun li =>
    li.targetId == targetId && li.orderId == some orderId && li.deletedAt == none)

/-- The inner join used by the shipment branch: a live linking line item whose
own `shipmentStatusId` is not the canceled one (SQL `!= :statusId OR IS NULL`,
src/order/edit.ts lines 726-740). -/
def activeShipLinkExists (ids : StatusIds) (db : DB) (orderId targetId : Nat) : Bool :=
  db.pgLineItems.any (fun li =>
    li.targetId == targetId && li.orderId == some orderId && li.deletedAt == none &&
      li.shipmentStatusId != some ids.shipmentCanceledId)

/-- `canOrderBeCancelled` (src/order/edit.ts lines 674-746): any linked
booking request in a non-canceled status vetoes; any linked, touched
(created ≠ updated) booking confirmation whose status differs from the
canceled one or is NULL vetoes; any touched shipment with a live linking line
item whose shipment status differs from the canceled one or is NULL vetoes;
otherwise the order can be cancelled. -/
def canOrderBeCancelled (ids : StatusIds) (db : DB) (orderId : Nat) : Bool :=
  if ((loadedBookingRequests db orderId).find?
      (fun br => br.bookingStatusId != ids.bookingCanceledId)).isSome then false
  else if !(db.bookingConfirmations.filter (fun bc =>
      liveLinkExists db orderId bc.id &&
        bc.statusId != some ids.bookingCanceledId &&
        bc.createdAt != bc.updatedAt)).isEmpty then false
  else if !(db.shipments.filter (fun sh =>
      activeShipLinkExists ids db orderId sh.id &&
        sh.createdAt != sh.updatedAt)).isEmpty then false
  else true

/-- The cancellation criterion exactly as claim C4 words it, for comparison
with `canOrderBeCancelled`: every linked booking request canceled, and every
touched linked booking confirmation / shipment either has NO status or has the
corresponding canceled status (so a status-less touched record is treated as
inert). -/
def claimC4Cancellable (ids : StatusIds) (db : DB) (orderId : Nat) : Bool :=
  (loadedBookingRequests db orderId).all
      (fun br => br.bookingStatusId == ids.bookingCanceledId) &&
    (db.bookingConfirmations.all (fun bc =>
      !liveLinkExists db orderId bc.id || bc.createdAt == bc.updatedAt ||
        bc.statusId == none || bc.statusId == some ids.bookingCanceledId)) &&
    (db.shipments.all (fun sh =>
      sh.createdAt == sh.updatedAt ||
        db.pgLineItems.all (fun li =>
          !(li.targetId == sh.id && li.orderId == some orderId && li.deletedAt == none) ||
            li.shipmentStatusId == none ||
            li.shipmentStatusId == some ids.shipmentCanceledId)))

/-- Persist a field assignment on the stored order (overwrite or append). -/
def setField (fs : Fields) (k : String) (v : Nat) : Fields :=
  if fs.any (fun kv => kv.1 == k) then
    fs.map (fun kv => if kv.1 == k then (k, v) else kv)
  else fs ++ [(k, v)]

/-- Apply payload field values to the stored fields, later values winning. -/
def applyFieldValues (fs new : Fields) : Fields :=
  new.foldl (fun acc kv => setField acc kv.1 kv.2) fs

/-- `updateOrder` carrying an `orderStatusId` write. -/
def dbSetStatus (db : DB) (s : Nat) : DB :=
  { db with order := { db.order with orderStatusId := s },
            updateLog := db.updateLog ++ [UpdateOp.setStatus s] }

/-- `updateOrder` carrying an `isReadyForBooking` write. -/
def dbSetReady (db : DB) (b : Bool) : DB :=
  { db with order := { db.order with isReadyForBooking := b },
            updateLog := db.updateLog ++ [UpdateOp.setReady b] }

/-- `updateOrder` carrying payload field values. -/
def dbApplyFields (db : DB) (new : Fields) : DB :=
  { db with order := { db.order with fields := applyFieldValues db.order.fields new },
            updateLog := db.updateLog ++ [UpdateOp.applyF new] }

/-- Modelled from the spec: `resetOrder` (external collaborator, spec §6)
"reverts booking-readiness and dependent state"; the dependent
booking/shipment teardown happens in stores outside the modelled `DB`. -/
def resetOrderM (db : DB) : DB :=
  { db with order := { db.order with isReadyForBooking := false } }

/-- The default change-control exclusion list (src/order/edit.ts lines
303-307). -/
def defaultExcludeChangeControl : List String :=
  ["cargoReadyDate", "hotFlag", "specialInstructions"]

/-- The exclusion list actually used: the preference override, or the
default. -/
def excludedFromChangeCtl (prefs : POPrefs) : List String :=
  prefs.excludeChangeControl.getD defaultExcludeChangeControl

/-- The `shippingNoChangeCtl` bucket: payload shipping fields that are in the
exclusion list and therefore never change-controlled (src/order/edit.ts lines
308-320). -/
def shippingNoChangeCtl (prefs : POPrefs) (shipping : Fields) : Fields :=
  shipping.filter (fun kv => (excludedFromChangeCtl prefs).contains kv.1)

/-- The `shippingInfoChangeReq` bucket: payload shipping fields subject to
change control. -/
def shippingInfoChangeReq (prefs : POPrefs) (shipping : Fields) : Fields :=
  shipping.filter (fun kv => !(excludedFromChangeCtl prefs).contains kv.1)

/-- `hasChangeControl` (src/order/edit.ts lines 322-325): the preference flag
is exactly `true`, the order status at decision time is Received or Accepted,
and a change-controlled shipping field or any line-item instruction is
present. -/
def hasChangeControl (ids : StatusIds) (prefs : POPrefs) (statusId : Nat)
    (shipping : Fields) (li : LineItemsInput) : Bool :=
  (prefs.enableChangeControl == some true) &&
    (statusId == ids.receivedId || statusId == ids.acceptedId) &&
    (!(shippingInfoChangeReq prefs shipping).isEmpty || !li.isEmptyInput)

/-- The change requests of one order, in insertion (key) order. -/
def crsForOrder (crs : List ChangeRequest) (orderId : Nat) : List ChangeRequest :=
  crs.filter (fun c => c.orderId == orderId)

/-- Next change-request number (src/order/edit.ts lines 434-442): the
newest-keyed change request of the order determines it — its number plus one,
or 1 when the order has none. -/
def nextChangeRequestNumber (crs : List ChangeRequest) (orderId : Nat) : Nat :=
  match (crsForOrder crs orderId).getLast? with
  | none => 1
  | some last => last.changeRequestNumber + 1

/-- The change-request row inserted by `invokeChangeControl`
(src/order/edit.ts lines 444-470): status Proposed, the computed number, the
captured shipping fields and line-item instructions, keyed by insertion
order. -/
def crCreated (ids : StatusIds) (userId : Nat) (db : DB)
    (lineItems : LineItemsInput) (shipping : Fields) (note : String) : ChangeRequest :=
  { id := db.changeRequests.length
    orderId := db.order.id
    entityId := userId
    changeStatusId := ids.proposedChangeId
    changeRequestNumber := nextChangeRequestNumber db.changeRequests db.order.id
    shippingCaptured := shipping
    lineItemsCaptured := lineItems
    note := note }

/-- The review rows inserted by `invokeChangeControl` (src/order/edit.ts
lines 487-508): one per required approver; the author's row is Approved with
a review date, every other row Proposed with none. -/
def reviewRowsCreated (ids : StatusIds) (userId : Nat) (db : DB) : List Review :=
  (db.participants.filter (fun p => p.approvalIsRequired)).map (fun p =>
    { orderChangeRequestId := db.changeRequests.length
      entityId := p.userId
      reviewDate := if p.userId == userId then some 0 else none
      changeStatusId := if p.userId == userId then ids.approvedChangeId
                        else ids.proposedChangeId })

/-- `invokeChangeControl` (src/order/edit.ts lines 413-525): flip
`isReadyForBooking` to false, insert the change request, then insert the
review rows.  The mongo message fan-out targets a store outside the modelled
`DB`, and flipping the booking flag first leaves the change requests,
participants and order identity it reads unchanged. -/
def invokeChangeControlM (ids : StatusIds) (userId : Nat) (db : DB)
    (lineItems : LineItemsInput) (shipping : Fields) (note : String) : DB :=
  let db1 := dbSetReady db false
  { db1 with
      changeRequests :=
        db1.changeRequests ++ [crCreated ids userId db lineItems shipping note]
      reviews := db1.reviews ++ reviewRowsCreated ids userId db }

/-- `updateLineItems` (src/order/edit.ts lines 527-570) on the modelled store
of line-item ids: `replace` swaps the whole set, otherwise `add` appends and
`remove` filters; `edit` changes row contents, not the id set. -/
def updateLineItemsM (db : DB) (li : LineItemsInput) : DB :=
  match li.replaceLineItems with
  | some newItems => { db with lineItemIds := newItems }
  | none =>
      let db1 := match li.addLineItems with
        | some items => { db with lineItemIds := db.lineItemIds ++ items }
        | none => db
      match li.removeLineItems with
      | some items =>
          { db1 with lineItemIds := db1.lineItemIds.filter (fun i => !items.contains i) }
      | none => db1

/-- Modelled from the spec: `checkReadyForBookingResolver` (external resolver,
spec §4.2 step 9 and §4.4) recomputes the derived ready-for-booking flag and
writes it back when it changed; per the spec an order under active change
control — one with a Proposed change request — cannot be booking-ready, and
the remaining preconditions are abstracted as `ctx.bookingPrecondsOk`. -/
def readyRecomputed (ids : StatusIds) (ctx : Ctx) (db : DB) : Bool :=
  ctx.bookingPrecondsOk &&
    !(db.changeRequests.any (fun cr =>
      cr.orderId == db.order.id && cr.changeStatusId == ids.proposedChangeId))

/-- Write-back half of the ready-for-booking recomputation: update the flag
only when it changed. -/
def checkReadyForBookingM (ids : StatusIds) (ctx : Ctx) (db : DB) : DB :=
  if readyRecomputed ids ctx db != db.order.isReadyForBooking then
    dbSetReady db (readyRecomputed ids ctx db)
  else db

/-- A non-integration `editOrder` payload after destructuring
(src/order/edit.ts lines 191-197 and 286-290): shipping fields, the remaining
top-level fields, an optional embedded status change, line-item instructions
and the change-request note.  `extraData` flows to an auxiliary store and is
not part of the modelled order row. -/
structure EditInput where
  userId : Nat
  shippingInformation : Fields
  restFields : Fields
  orderStatusId : Option Nat
  lineItems : LineItemsInput
  orderChangeRequestNote : String
deriving DecidableEq, Repr

/-- The reset applied when an order is being canceled or rejected
(src/order/edit.ts lines 139-144). -/
def resetIfCancelOrReject (ids : StatusIds) (db : DB) (newStatus : Nat) : DB :=
  if newStatus == ids.canceledId || newStatus == ids.rejectedId then resetOrderM db
  else db

/-- `editOrderStatus` (src/order/edit.ts lines 109-181) on the modelled
state: a cancel is vetoed by `canOrderBeCancelled`; cancel/reject resets the
order; a transition into Accepted requires no ready-for-booking errors and
marks the order booking-ready; the status write is persisted.  Milestone
completion targets a store outside the modelled `DB`. -/
def editOrderStatusM (ids : StatusIds) (ctx : Ctx) (db : DB) (newStatus : Nat) :
    Except String DB :=
  if newStatus == ids.canceledId && !canOrderBeCancelled ids db db.order.id then
    Except.error "Cannot cancel a Purchase Order that has a booked request, booked confirmation or shipment."
  else if newStatus == ids.acceptedId && db.order.orderStatusId != ids.acceptedId then
    if !ctx.readyErrors.isEmpty then Except.error "order is not ready for booking"
    else Except.ok (dbSetReady (dbSetStatus (resetIfCancelOrReject ids db newStatus) newStatus) true)
  else Except.ok (dbSetStatus (resetIfCancelOrReject ids db newStatus) newStatus)

/-- The embedded status sub-operation of `editOrder` (src/order/edit.ts lines
293-300): run `editOrderStatus` only when the payload carries a status that
differs from the current one. -/
def statusStep (ids : StatusIds) (ctx : Ctx) (db : DB) (input : EditInput) :
    Except String DB :=
  match input.orderStatusId with
  | some s => if s != db.order.orderStatusId then editOrderStatusM ids ctx db s
              else Except.ok db
  | none => Except.ok db

/-- The order status in force when the Path A/B/C decision is made. -/
def decisionStatusId (db : DB) (input : EditInput) : Nat :=
  match input.orderStatusId with
  | some s => s
  | none => db.order.orderStatusId

/-- The Path A / B / C fork of `editOrder` (src/order/edit.ts lines 322-374):
without change control, apply all payload fields and line items directly; with
change control, invoke it, and additionally apply the non-controlled bucket
directly when it is non-empty (Path C). -/
def routeEdit (ids : StatusIds) (prefs : POPrefs) (db : DB) (input : EditInput) : DB :=
  if !hasChangeControl ids prefs db.order.orderStatusId
      input.shippingInformation input.lineItems then
    updateLineItemsM (dbApplyFields db (input.restFields ++ input.shippingInformation))
      input.lineItems
  else if !(shippingNoChangeCtl prefs input.shippingInformation).isEmpty then
    dbApplyFields
      (invokeChangeControlM ids input.userId db input.lineItems
        input.shippingInformation input.orderChangeRequestNote)
      (input.restFields ++ shippingNoChangeCtl prefs input.shippingInformation)
  else
    invokeChangeControlM ids input.userId db input.lineItems
      input.shippingInformation input.orderChangeRequestNote

/-- The non-integration path of `editOrder` (src/order/edit.ts lines 183-399):
visibility and editability guards, line-item payload validation, the embedded
status sub-operation, the Path A/B/C fork, then the ready-for-booking
recomputation; the returned order is the one re-read from the store.
(`checkFieldsEditable` is skipped for scalar field values because lodash
`isEmpty` is true on every number, so it never rejects a payload of scalar
fields; the final message-thread notification targets a store outside the
modelled `DB`.) -/
def editOrderM (ids : StatusIds) (prefs : POPrefs) (ctx : Ctx) (db : DB)
    (input : EditInput) : Except String DB :=
  if !ctx.isVisibleOk then
    Except.error "User does not have permission to edit this order."
  else if !ctx.isEditableOk then Except.error "order is not editable"
  else
    match checkLineItems input.lineItems with
    | Except.error e => Except.error e
    | Except.ok _ =>
        match statusStep ids ctx db input with
        | Except.error e => Except.error e
        | Except.ok db1 => Except.ok (checkReadyForBookingM ids ctx (routeEdit ids prefs db1 input))

theorem resetIfCancelOrReject_spec (ids : StatusIds) (db : DB) (s : Nat) :
    (resetIfCancelOrReject ids db s).order.id = db.order.id ∧
    (resetIfCancelOrReject ids db s).order.fields = db.order.fields ∧
    (resetIfCancelOrReject ids db s).changeRequests = db.changeRequests ∧
    (resetIfCancelOrReject ids db s).reviews = db.reviews ∧
    (resetIfCancelOrReject ids db s).participants = db.participants ∧
    (resetIfCancelOrReject ids db s).updateLog = db.updateLog := by
  unfold resetIfCancelOrReject resetOrderM
  split <;> simp

/-- A successful `editOrderStatus` writes exactly the requested status, keeps
identity, change requests, reviews and participants, and appends only
non-field-applying updates to the log. -/
theorem editOrderStatusM_ok {ids : StatusIds} {ctx : Ctx} {db : DB} {s : Nat} {db' : DB}
    (h : editOrderStatusM ids ctx db s = Except.ok db') :
    db'.order.orderStatusId = s ∧
    db'.order.id = db.order.id ∧
    db'.changeRequests = db.changeRequests ∧
    db'.reviews = db.reviews ∧
    db'.participants = db.participants ∧
    ∃ t, db'.updateLog = db.updateLog ++ t ∧ t.filter UpdateOp.isApplyF = [] := by
  have hr := resetIfCancelOrReject_spec ids db s
  unfold editOrderStatusM at h
  split at h
  · simp at h
  · split at h
    · split at h
      · simp at h
      · injection h with h2
        subst h2
        refine ⟨by simp [dbSetReady, dbSetStatus], by simp [dbSetReady, dbSetStatus, hr.1],
          by simp [dbSetReady, dbSetStatus, hr.2.2.1], by simp [dbSetReady, dbSetStatus, hr.2.2.2.1],
          by simp [dbSetReady, dbSetStatus, hr.2.2.2.2.1],
          ⟨[UpdateOp.setStatus s, UpdateOp.setReady true], ?_, rfl⟩⟩
        simp [dbSetReady, dbSetStatus, hr.2.2.2.2.2]
    · injection h with h2
      subst h2
      refine ⟨by simp [dbSetStatus], by simp [dbSetStatus, hr.1],
        by simp [dbSetStatus, hr.2.2.1], by simp [dbSetStatus, hr.2.2.2.1],
        by simp [dbSetStatus, hr.2.2.2.2.1],
        ⟨[UpdateOp.setStatus s], ?_, rfl⟩⟩
      simp [dbSetStatus, hr.2.2.2.2.2]

/-- A successful status sub-operation leaves the order at the decision-time
status and touches nothing the routing decision or the change-request store
depends on. -/
theorem statusStep_ok {ids : StatusIds} {ctx : Ctx} {db : DB} {input : EditInput} {db' : DB}
    (h : statusStep ids ctx db input = Except.ok db') :
    db'.order.orderStatusId = decisionStatusId db input ∧
    db'.order.id = db.order.id ∧
    db'.changeRequests = db.changeRequests ∧
    db'.reviews = db.reviews ∧
    db'.participants = db.participants ∧
    ∃ t, db'.updateLog = db.updateLog ++ t ∧ t.filter UpdateOp.isApplyF = [] := by
  unfold statusStep at h
  unfold decisionStatusId
  cases hi : input.orderStatusId with
  | none =>
      rw [hi] at h
      injection h with h2
      subst h2
      exact ⟨rfl, rfl, rfl, rfl, rfl, ⟨[], by simp, rfl⟩⟩
  | some s =>
      rw [hi] at h
      dsimp only at h ⊢
      by_cases hs : (s != db.order.orderStatusId) = true
      · rw [if_pos hs] at h
        exact editOrderStatusM_ok h
      · rw [if_neg hs] at h
        injection h with h2
        subst h2
        have hss : s = db.order.orderStatusId := by simpa using hs
        exact ⟨hss.symm, rfl, rfl, rfl, rfl, ⟨[], by simp, rfl⟩⟩

theorem invokeChangeControlM_spec (ids : StatusIds) (userId : Nat) (db : DB)
    (li : LineItemsInput) (shipping : Fields) (note : String) :
    (invokeChangeControlM ids userId db li shipping note).changeRequests =
        db.changeRequests ++ [crCreated ids userId db li shipping note] ∧
    (invokeChangeControlM ids userId db li shipping note).reviews =
        db.reviews ++ reviewRowsCreated ids userId db ∧
    (invokeChangeControlM ids userId db li shipping note).order.id = db.order.id ∧
    (invokeChangeControlM ids userId db li shipping note).participants = db.participants ∧
    (invokeChangeControlM ids userId db li shipping note).updateLog =
        db.updateLog ++ [UpdateOp.setReady false] := by
  unfold invokeChangeControlM dbSetReady
  exact ⟨rfl, rfl, rfl, rfl, rfl⟩

theorem updateLineItemsM_spec (db : DB) (li : LineItemsInput) :
    (updateLineItemsM db li).order = db.order ∧
    (updateLineItemsM db li).changeRequests = db.changeRequests ∧
    (updateLineItemsM db li).reviews = db.reviews ∧
    (updateLineItemsM db li).participants = db.participants ∧
    (updateLineItemsM db li).updateLog = db.updateLog := by
  rcases li with ⟨add, edit, rem, rep⟩
  cases rep <;> cases add <;> cases rem <;> simp [updateLineItemsM]

theorem checkReadyForBookingM_spec (ids : StatusIds) (ctx : Ctx) (db : DB) :
    (checkReadyForBookingM ids ctx db).changeRequests = db.changeRequests ∧
    (checkReadyForBookingM ids ctx db).order.id = db.order.id ∧
    (checkReadyForBookingM ids ctx db).order.fields = db.order.fields ∧
    (checkReadyForBookingM ids ctx db).participants = db.participants ∧
    (checkReadyForBookingM ids ctx db).reviews = db.reviews ∧
    ∃ t, (checkReadyForBookingM ids ctx db).updateLog = db.updateLog ++ t ∧
      t.filter UpdateOp.isApplyF = [] := by
  unfold checkReadyForBookingM
  split
  · exact ⟨rfl, rfl, rfl, rfl, rfl, ⟨[UpdateOp.setReady (readyRecomputed ids ctx db)], rfl, rfl⟩⟩
  · exact ⟨rfl, rfl, rfl, rfl, rfl, ⟨[], by simp, rfl⟩⟩

/-- If the order has a Proposed change request, the recomputation leaves (or
makes) the booking-ready flag false. -/
theorem checkReadyForBookingM_false (ids : StatusIds) (ctx : Ctx) (db : DB)
    (hcr : db.changeRequests.any (fun cr =>
      cr.orderId == db.order.id && cr.changeStatusId == ids.proposedChangeId) = true) :
    (checkReadyForBookingM ids ctx db).order.isReadyForBooking = false := by
  unfold checkReadyForBookingM readyRecomputed
  rw [hcr]
  cases hf : db.order.isReadyForBooking <;> simp [hf, dbSetReady]

/-- A successful `editOrder` run is a successful status sub-operation followed
by the routing fork and the ready-for-booking recomputation. -/
theorem editOrderM_ok_inv {ids : StatusIds} {prefs : POPrefs} {ctx : Ctx} {db : DB}
    {input : EditInput} {db' : DB}
    (h : editOrderM ids prefs ctx db input = Except.ok db') :
    ∃ db1, statusStep ids ctx db input = Except.ok db1 ∧
      db' = checkReadyForBookingM ids ctx (routeEdit ids prefs db1 input) := by
  unfold editOrderM at h
  split at h
  · simp at h
  · split at h
    · simp at h
    · split at h
      · simp at h
      · split at h
        · simp at h
        · rename_i db1 heq
          injection h with h2
          exact ⟨db1, heq, h2.symm⟩

/-- The Bool predicate `hasChangeControl` spelt out as the claims state it. -/
theorem hasChangeControl_iff (ids : StatusIds) (prefs : POPrefs) (statusId : Nat)
    (shipping : Fields) (li : LineItemsInput) :
    hasChangeControl ids prefs statusId shipping li = true ↔
      (prefs.enableChangeControl = some true ∧
        (statusId = ids.receivedId ∨ statusId = ids.acceptedId) ∧
        ((∃ kv ∈ shipping, (excludedFromChangeCtl prefs).contains kv.1 = false) ∨
          li.isEmptyInput = false)) := by
  unfold hasChangeControl shippingInfoChangeReq
  simp only [Bool.and_eq_true, Bool.or_eq_true, beq_iff_eq, Bool.not_eq_true',
    List.isEmpty_eq_false, ne_eq]
  constructor
  · rintro ⟨⟨h1, h2⟩, h3⟩
    refine ⟨h1, h2, ?_⟩
    rcases h3 with h3 | h3
    · left
      rcases List.exists_mem_of_ne_nil _ h3 with ⟨kv, hkv⟩
      rcases List.mem_filter.mp hkv with ⟨hm, hp⟩
      exact ⟨kv, hm, by simpa using hp⟩
    · right
      exact h3
  · rintro ⟨h1, h2, h3⟩
    refine ⟨⟨h1, h2⟩, ?_⟩
    rcases h3 with ⟨kv, hm, hp⟩ | h3
    · left
      intro hnil
      have hmem := List.filter_eq_nil_iff.mp hnil kv hm
      have hp' : kv.1 ∉ excludedFromChangeCtl prefs := by simpa using hp
      simp [hp'] at hmem
    · right
      exact h3

/-- Path A of the routing fork: no change request, direct application of the
whole payload. -/
theorem routeEdit_noCC {ids : StatusIds} {prefs : POPrefs} {db : DB} {input : EditInput}
    (h : hasChangeControl ids prefs db.order.orderStatusId
      input.shippingInformation input.lineItems = false) :
    (routeEdit ids prefs db input).changeRequests = db.changeRequests ∧
    (routeEdit ids prefs db input).order.id = db.order.id ∧
    (routeEdit ids prefs db input).updateLog =
      db.updateLog ++ [UpdateOp.applyF (input.restFields ++ input.shippingInformation)] := by
  unfold routeEdit
  rw [h]
  simp only [Bool.not_false, if_true]
  have hu := updateLineItemsM_spec
    (dbApplyFields db (input.restFields ++ input.shippingInformation)) input.lineItems
  refine ⟨?_, ?_, ?_⟩
  · rw [hu.2.1]
    simp [dbApplyFields]
  · rw [hu.1]
    simp [dbApplyFields]
  · rw [hu.2.2.2.2]
    simp [dbApplyFields]

/-- Paths B and C of the routing fork: exactly one change request appended,
the booking flag flipped, and a direct application of exactly the
non-controlled bucket when (and only when) it is non-empty. -/
theorem routeEdit_CC {ids : StatusIds} {prefs : POPrefs} {db : DB} {input : EditInput}
    (h : hasChangeControl ids prefs db.order.orderStatusId
      input.shippingInformation input.lineItems = true) :
    (routeEdit ids prefs db input).changeRequests =
      db.changeRequests ++ [crCreated ids input.userId db input.lineItems
        input.shippingInformation input.orderChangeRequestNote] ∧
    (routeEdit ids prefs db input).order.id = db.order.id ∧
    (routeEdit ids prefs db input).updateLog.filter UpdateOp.isApplyF =
      db.updateLog.filter UpdateOp.isApplyF ++
        (if (shippingNoChangeCtl prefs input.shippingInformation).isEmpty then []
         else [UpdateOp.applyF
           (input.restFields ++ shippingNoChangeCtl prefs input.shippingInformation)]) ∧
    UpdateOp.setReady false ∈ (routeEdit ids prefs db input).updateLog := by
  unfold routeEdit
  rw [h]
  simp only [Bool.not_true, Bool.false_eq_true, if_false]
  have hi := invokeChangeControlM_spec ids input.userId db input.lineItems
    input.shippingInformation input.orderChangeRequestNote
  by_cases hno : (shippingNoChangeCtl prefs input.shippingInformation).isEmpty
  · rw [hno]
    simp only [Bool.not_true, Bool.false_eq_true, if_false]
    refine ⟨hi.1, hi.2.2.1, ?_, ?_⟩
    · rw [hi.2.2.2.2]
      simp [UpdateOp.isApplyF]
    · rw [hi.2.2.2.2]
      simp
  · rw [Bool.not_eq_true] at hno
    rw [hno]
    simp only [Bool.not_false, if_true]
    refine ⟨?_, ?_, ?_, ?_⟩
    · simp only [dbApplyFields]
      exact hi.1
    · simp only [dbApplyFields]
      exact hi.2.2.1
    · simp only [dbApplyFields]
      rw [hi.2.2.2.2]
      simp [UpdateOp.isApplyF]
    · simp only [dbApplyFields]
      rw [hi.2.2.2.2]
      simp

/-- C1: for every non-integration edit processed by `editOrder`, the
change-control path is taken — exactly one change request is created — iff
the buyer's purchase-order preferences have `enableChangeControl` equal to
`true`, the order's status at decision time is Received or Accepted, and the
payload carries at least one change-controlled shipping field or any
line-item instruction; in particular, when the decision-time status is
neither Received nor Accepted the edit takes Path A: the change-request store
is untouched and the whole payload is applied directly. -/
theorem editOrder_change_control_iff
    (ids : StatusIds) (prefs : POPrefs) (ctx : Ctx) (db : DB) (input : EditInput)
    (db' : DB) (h : editOrderM ids prefs ctx db input = Except.ok db') :
    (db'.changeRequests.length = db.changeRequests.length + 1 ↔
      (prefs.enableChangeControl = some true ∧
        (decisionStatusId db input = ids.receivedId ∨
          decisionStatusId db input = ids.acceptedId) ∧
        ((∃ kv ∈ input.shippingInformation,
            (excludedFromChangeCtl prefs).contains kv.1 = false) ∨
          input.lineItems.isEmptyInput = false))) ∧
    ((decisionStatusId db input ≠ ids.receivedId ∧
        decisionStatusId db input ≠ ids.acceptedId) →
      db'.changeRequests = db.changeRequests ∧
      UpdateOp.applyF (input.restFields ++ input.shippingInformation) ∈ db'.updateLog) := by
  obtain ⟨db1, hstep, rfl⟩ := editOrderM_ok_inv h
  obtain ⟨hdst, hid1, hcr1, _, _, ⟨t1, hlog1, ht1⟩⟩ := statusStep_ok hstep
  obtain ⟨hRBcr, _, _, _, _, ⟨t2, hRBlog, ht2⟩⟩ :=
    checkReadyForBookingM_spec ids ctx (routeEdit ids prefs db1 input)
  by_cases hcc : hasChangeControl ids prefs db1.order.orderStatusId
      input.shippingInformation input.lineItems = true
  · obtain ⟨hRcr, _, _, _⟩ := routeEdit_CC hcc
    have hrhs := (hasChangeControl_iff ids prefs db1.order.orderStatusId
      input.shippingInformation input.lineItems).mp hcc
    rw [hdst] at hrhs
    refine ⟨?_, ?_⟩
    · have hlen : (checkReadyForBookingM ids ctx
          (routeEdit ids prefs db1 input)).changeRequests.length =
          db.changeRequests.length + 1 := by
        rw [hRBcr, hRcr, hcr1]
        simp
      exact iff_of_true hlen hrhs
    · intro hne
      rcases hrhs.2.1 with hx | hx
      · exact absurd hx hne.1
      · exact absurd hx hne.2
  · have hccf : hasChangeControl ids prefs db1.order.orderStatusId
        input.shippingInformation input.lineItems = false :=
      Bool.eq_false_iff.mpr hcc
    obtain ⟨hRcr, hRid, hRlog⟩ := routeEdit_noCC hccf
    refine ⟨?_, ?_⟩
    · apply iff_of_false
      · rw [hRBcr, hRcr, hcr1]
        omega
      · intro hrhs
        apply hcc
        apply (hasChangeControl_iff ids prefs db1.order.orderStatusId
          input.shippingInformation input.lineItems).mpr
        rw [hdst]
        exact hrhs
    · intro _
      refine ⟨by rw [hRBcr, hRcr, hcr1], ?_⟩
      rw [hRBlog, hRlog]
      simp

/-- C2 (amended): when change control activates and the payload contains no
shipping field IN the change-control exclusion set (Path B), `editOrder`
applies no payload field values directly and creates exactly one change
request capturing the shipping fields and line-item instructions; when fields
of the exclusion set (the non-controlled bucket) are also present (Path C),
the same single change request is created AND exactly the non-controlled
bucket, together with the non-shipping rest fields, is applied directly in
the same call. -/
theorem editOrder_pathB_pathC
    (ids : StatusIds) (prefs : POPrefs) (ctx : Ctx) (db : DB) (input : EditInput)
    (db' : DB) (h : editOrderM ids prefs ctx db input = Except.ok db')
    (hcc : hasChangeControl ids prefs (decisionStatusId db input)
      input.shippingInformation input.lineItems = true) :
    (shippingNoChangeCtl prefs input.shippingInformation = [] →
      db'.updateLog.filter UpdateOp.isApplyF = db.updateLog.filter UpdateOp.isApplyF ∧
      ∃ cr, db'.changeRequests = db.changeRequests ++ [cr] ∧
        cr.shippingCaptured = input.shippingInformation ∧
        cr.lineItemsCaptured = input.lineItems ∧
        cr.entityId = input.userId ∧
        cr.changeStatusId = ids.proposedChangeId) ∧
    (shippingNoChangeCtl prefs input.shippingInformation ≠ [] →
      (∃ cr, db'.changeRequests = db.changeRequests ++ [cr] ∧
        cr.shippingCaptured = input.shippingInformation ∧
        cr.lineItemsCaptured = input.lineItems ∧
        cr.entityId = input.userId ∧
        cr.changeStatusId = ids.proposedChangeId) ∧
      db'.updateLog.filter UpdateOp.isApplyF =
        db.updateLog.filter UpdateOp.isApplyF ++
          [UpdateOp.applyF (input.restFields ++
            shippingNoChangeCtl prefs input.shippingInformation)]) := by
  obtain ⟨db1, hstep, rfl⟩ := editOrderM_ok_inv h
  obtain ⟨hdst, hid1, hcr1, _, _, ⟨t1, hlog1, ht1⟩⟩ := statusStep_ok hstep
  obtain ⟨hRBcr, _, _, _, _, ⟨t2, hRBlog, ht2⟩⟩ :=
    checkReadyForBookingM_spec ids ctx (routeEdit ids prefs db1 input)
  rw [← hdst] at hcc
  obtain ⟨hRcr, hRid, hRfil, hRmem⟩ := routeEdit_CC hcc
  have hfil1 : db1.updateLog.filter UpdateOp.isApplyF =
      db.updateLog.filter UpdateOp.isApplyF := by
    rw [hlog1, List.filter_append, ht1, List.append_nil]
  have hfilRB : (checkReadyForBookingM ids ctx
      (routeEdit ids prefs db1 input)).updateLog.filter UpdateOp.isApplyF =
      (routeEdit ids prefs db1 input).updateLog.filter UpdateOp.isApplyF := by
    rw [hRBlog, List.filter_append, ht2, List.append_nil]
  constructor
  · intro hB
    have hBe : (shippingNoChangeCtl prefs input.shippingInformation).isEmpty = true := by
      rw [hB]
      rfl
    refine ⟨?_, crCreated ids input.userId db1 input.lineItems
      input.shippingInformation input.orderChangeRequestNote,
      by rw [hRBcr, hRcr, hcr1], rfl, rfl, rfl, rfl⟩
    rw [hfilRB, hRfil, hBe, hfil1]
    simp
  · intro hC
    have hCe : (shippingNoChangeCtl prefs input.shippingInformation).isEmpty = false :=
      List.isEmpty_eq_false.mpr hC
    refine ⟨⟨crCreated ids input.userId db1 input.lineItems
      input.shippingInformation input.orderChangeRequestNote,
      by rw [hRBcr, hRcr, hcr1], rfl, rfl, rfl, rfl⟩, ?_⟩
    rw [hfilRB, hRfil, hCe, hfil1]
    simp

/-- C7: whenever `editOrder` submits a change request (Path B or C), the
order's `isReadyForBooking` flag is written to false as part of the
submission, and the order as re-read and returned by `editOrder` is not
booking-ready, since the recomputation sees the still-Proposed change
request. -/
theorem change_request_blocks_booking_ready
    (ids : StatusIds) (prefs : POPrefs) (ctx : Ctx) (db : DB) (input : EditInput)
    (db' : DB) (h : editOrderM ids prefs ctx db input = Except.ok db')
    (hcc : hasChangeControl ids prefs (decisionStatusId db input)
      input.shippingInformation input.lineItems = true) :
    UpdateOp.setReady false ∈ db'.updateLog ∧
    db'.order.isReadyForBooking = false := by
  obtain ⟨db1, hstep, rfl⟩ := editOrderM_ok_inv h
  obtain ⟨hdst, hid1, hcr1, _, _, _⟩ := statusStep_ok hstep
  rw [← hdst] at hcc
  obtain ⟨hRcr, hRid, _, hRmem⟩ := routeEdit_CC hcc
  constructor
  · obtain ⟨_, _, _, _, _, ⟨t2, hRBlog, _⟩⟩ :=
      checkReadyForBookingM_spec ids ctx (routeEdit ids prefs db1 input)
    rw [hRBlog]
    exact List.mem_append_left _ hRmem
  · apply checkReadyForBookingM_false
    rw [hRcr, hRid, List.any_append]
    simp [crCreated]

/-- Concrete status-id environment used by witnesses and counterexamples. -/
def sampleIds : StatusIds :=
  { receivedId := 1, acceptedId := 2, canceledId := 3, rejectedId := 4,
    proposedChangeId := 10, approvedChangeId := 11,
    bookingCanceledId := 20, shipmentCanceledId := 21 }

/-- Concrete preferences: change control enabled, default exclusion list. -/
def samplePrefs : POPrefs :=
  { enableChangeControl := some true, excludeChangeControl := none }

def sampleCtx : Ctx :=
  { userId := 7, orgId := 1, isVisibleOk := true, isEditableOk := true,
    readyErrors := [], bookingPrecondsOk := true }

/-- Concrete state: an Accepted, booking-ready order with three participants,
two of them required approvers. -/
def sampleDB : DB :=
  { order := { id := 42, buyerId := 9, orderStatusId := 2,
               isReadyForBooking := true, fields := [] }
    changeRequests := []
    reviews := []
    participants := [⟨7, true⟩, ⟨8, true⟩, ⟨9, false⟩]
    lineItemIds := []
    rollups := []
    bookingRequests := []
    pgLineItems := []
    bookingConfirmations := []
    shipments := []
    updateLog := [] }

/-- Witness payload: a single change-controlled shipping field. -/
def sampleInputB : EditInput :=
  { userId := 7, shippingInformation := [("destinationId", 5)], restFields := [],
    orderStatusId := none, lineItems := {}, orderChangeRequestNote := "" }

def sampleOutB : DB :=
  (editOrderM sampleIds samplePrefs sampleCtx sampleDB sampleInputB).toOption.getD sampleDB

/-- Counterexample payload: only an excluded shipping field (`hotFlag`) plus a
line-item add instruction. -/
def sampleInputC : EditInput :=
  { userId := 7, shippingInformation := [("hotFlag", 5)], restFields := [],
    orderStatusId := none, lineItems := { addLineItems := some [70] },
    orderChangeRequestNote := "" }

def sampleOutC : DB :=
  (editOrderM sampleIds samplePrefs sampleCtx sampleDB sampleInputC).toOption.getD sampleDB

/-- C1 witness: on the concrete Accepted order with an enabled preference and
a controlled shipping field, the run creates exactly one change request. -/
theorem editOrder_change_control_iff_witness :
    sampleOutB.changeRequests.length = sampleDB.changeRequests.length + 1 :=
  (editOrder_change_control_iff sampleIds samplePrefs sampleCtx sampleDB sampleInputB
    sampleOutB rfl).1.mpr (by decide)

/-- C2 counterexample to the claim as stated: the payload has NO shipping
field outside the exclusion set, change control activates (via the line-item
instruction), and yet the run directly applies the `hotFlag` field — the code
takes Path C where the claim's Path-B case predicts zero direct field
mutations. -/
theorem editOrder_pathB_counterexample :
    hasChangeControl sampleIds samplePrefs sampleDB.order.orderStatusId
      sampleInputC.shippingInformation sampleInputC.lineItems = true ∧
    sampleInputC.shippingInformation.all
      (fun kv => (excludedFromChangeCtl samplePrefs).contains kv.1) = true ∧
    editOrderM sampleIds samplePrefs sampleCtx sampleDB sampleInputC =
      Except.ok sampleOutC ∧
    UpdateOp.applyF [("hotFlag", 5)] ∈ sampleOutC.updateLog :=
  ⟨by decide, by decide, rfl, by decide⟩

/-- C2 witness (amended claim): on the true Path B input no field-applying
update is logged. -/
theorem editOrder_pathB_pathC_witness :
    sampleOutB.updateLog.filter UpdateOp.isApplyF =
      sampleDB.updateLog.filter UpdateOp.isApplyF :=
  ((editOrder_pathB_pathC sampleIds samplePrefs sampleCtx sampleDB sampleInputB
    sampleOutB rfl (by decide)).1 (by decide)).1

/-- C7 witness: after the Path B run the returned order is not
booking-ready. -/
theorem change_request_blocks_booking_ready_witness :
    sampleOutB.order.isReadyForBooking = false :=
  (change_request_blocks_booking_ready sampleIds samplePrefs sampleCtx sampleDB
    sampleInputB sampleOutB rfl (by decide)).2

/-- C5: `invokeChangeControl` inserts exactly one review row per participant
whose `approvalIsRequired` flag is true (and none for any other participant);
the row whose approver is the request's author is created with status
Approved and a non-null review date, and every other row is created with
status Proposed and a null review date. -/
theorem change_review_self_approval
    (ids : StatusIds) (userId : Nat) (db : DB) (li : LineItemsInput)
    (shipping : Fields) (note : String)
    (hnodup : (db.participants.map (fun p => p.userId)).Nodup) :
    ((invokeChangeControlM ids userId db li shipping note).reviews.drop
        db.reviews.length).length =
      (db.participants.filter (fun p => p.approvalIsRequired)).length ∧
    (∀ p ∈ db.participants, p.approvalIsRequired = true →
      (((invokeChangeControlM ids userId db li shipping note).reviews.drop
          db.reviews.length).filter (fun r => r.entityId == p.userId)).length = 1) ∧
    (∀ p ∈ db.participants, p.approvalIsRequired = false →
      (((invokeChangeControlM ids userId db li shipping note).reviews.drop
          db.reviews.length).filter (fun r => r.entityId == p.userId)).length = 0) ∧
    (∀ r ∈ (invokeChangeControlM ids userId db li shipping note).reviews.drop
        db.reviews.length,
      (r.entityId = userId →
        r.changeStatusId = ids.approvedChangeId ∧ r.reviewDate ≠ none) ∧
      (r.entityId ≠ userId →
        r.changeStatusId = ids.proposedChangeId ∧ r.reviewDate = none)) := by
  have hdrop : (invokeChangeControlM ids userId db li shipping note).reviews.drop
      db.reviews.length = reviewRowsCreated ids userId db := by
    rw [(invokeChangeControlM_spec ids userId db li shipping note).2.1,
      List.drop_left]
  rw [hdrop]
  have hnd' : ((db.participants.filter (fun p => p.approvalIsRequired)).map
      (fun p => p.userId)).Nodup :=
    hnodup.sublist ((List.filter_sublist db.participants).map (fun p => p.userId))
  refine ⟨by simp [reviewRowsCreated], ?_, ?_, ?_⟩
  · intro p hp hreq
    unfold reviewRowsCreated
    rw [List.filter_map]
    rw [List.length_map]
    exact filterLength_eq_one _ _ p hnd'
      (List.mem_filter.mpr ⟨hp, hreq⟩) (by simp)
      (fun x _ hx => by simpa using hx)
  · intro p hp hreq
    unfold reviewRowsCreated
    rw [List.filter_map]
    rw [List.length_map]
    rw [List.length_eq_zero, List.filter_eq_nil_iff]
    intro x hx hpx
    rcases List.mem_filter.mp hx with ⟨hxm, hxreq⟩
    have hxp : x.userId = p.userId := by simpa using hpx
    have : x = p := List.inj_on_of_nodup_map hnodup hxm hp hxp
    rw [this] at hxreq
    rw [hreq] at hxreq
    cases hxreq
  · intro r hr
    unfold reviewRowsCreated at hr
    rcases List.mem_map.mp hr with ⟨q, _, rfl⟩
    constructor
    · intro heq
      have hqe : q.userId = userId := heq
      simp [hqe]
    · intro hne
      have hqe : ¬q.userId = userId := hne
      simp [hqe]

/-- C5 witness: on the concrete participant set (author 7 and user 8 required,
user 9 not), the author's appended row count is exactly one. -/
theorem change_review_self_approval_witness :
    (((invokeChangeControlM sampleIds 7 sampleDB {} [] "").reviews.drop
        sampleDB.reviews.length).filter (fun r => r.entityId == 7)).length = 1 :=
  (change_review_self_approval sampleIds 7 sampleDB {} [] "" (by decide)).2.1
    ⟨7, true⟩ (by decide) rfl

/-- The change-request numbers of one order, in insertion (key) order. -/
def changeRequestNumbersFor (crs : List ChangeRequest) (orderId : Nat) : List Nat :=
  (crsForOrder crs orderId).map (fun c => c.changeRequestNumber)

/-- Change-request stores reachable by repeatedly inserting change requests
the way `invokeChangeControl` does: each new request is appended with the
number computed by `nextChangeRequestNumber` over the store it joins. -/
inductive CRStoreReachable : List ChangeRequest → Prop where
  | empty : CRStoreReachable []
  | create (crs : List ChangeRequest) (cr : ChangeRequest)
      (h : CRStoreReachable crs)
      (hn : cr.changeRequestNumber = nextChangeRequestNumber crs cr.orderId) :
      CRStoreReachable (crs ++ [cr])

/-- In a reachable store each order's numbers are exactly `1, 2, …`. -/
theorem crNumbers_range {crs : List ChangeRequest} (h : CRStoreReachable crs)
    (oid : Nat) :
    changeRequestNumbersFor crs oid =
      List.range' 1 (crsForOrder crs oid).length := by
  induction h with
  | empty => simp [changeRequestNumbersFor, crsForOrder]
  | create crs cr hre hn ih =>
      by_cases hc : cr.orderId = oid
      · subst hc
        have hfil : crsForOrder (crs ++ [cr]) cr.orderId =
            crsForOrder crs cr.orderId ++ [cr] := by
          unfold crsForOrder
          rw [List.filter_append]
          simp
        have hnum : cr.changeRequestNumber =
            (crsForOrder crs cr.orderId).length + 1 := by
          rw [hn]
          cases hn0 : (crsForOrder crs cr.orderId).length with
          | zero =>
              rw [List.length_eq_zero] at hn0
              unfold nextChangeRequestNumber
              rw [hn0]
              rfl
          | succ m =>
              have hlast2 : (changeRequestNumbersFor crs cr.orderId).getLast? =
                  some (1 + m) := by
                rw [ih, hn0, List.range'_1_concat, List.getLast?_concat]
              rw [changeRequestNumbersFor, List.getLast?_map] at hlast2
              cases hl : (crsForOrder crs cr.orderId).getLast? with
              | none =>
                  rw [hl] at hlast2
                  cases hlast2
              | some last =>
                  rw [hl] at hlast2
                  injection hlast2 with hlast3
                  dsimp only at hlast3
                  unfold nextChangeRequestNumber
                  rw [hl]
                  dsimp only
                  omega
        unfold changeRequestNumbersFor
        rw [hfil, List.map_append, List.map_singleton, hnum]
        rw [← changeRequestNumbersFor, ih, List.length_append]
        simp [List.range'_1_concat, Nat.add_comm]
      · have hfil : crsForOrder (crs ++ [cr]) oid = crsForOrder crs oid := by
          unfold crsForOrder
          rw [List.filter_append]
          simp [hc]
        unfold changeRequestNumbersFor
        rw [hfil]
        exact ih

/-- C3: in every store reachable by `invokeChangeControl`-style insertions,
each order's change-request numbers are exactly `1, 2, …` in insertion
order — the first request of an order is numbered 1, each subsequent one is
the prior maximum plus one, and a number is never reused; moreover a store
extended by `invokeChangeControl` itself stays reachable. -/
theorem change_request_numbering
    (crs : List ChangeRequest) (orderId : Nat) (h : CRStoreReachable crs) :
    changeRequestNumbersFor crs orderId =
      List.range' 1 (crsForOrder crs orderId).length ∧
    (changeRequestNumbersFor crs orderId).Nodup ∧
    (∀ (ids : StatusIds) (userId : Nat) (db : DB) (li : LineItemsInput)
        (shipping : Fields) (note : String), db.changeRequests = crs →
      CRStoreReachable
        (invokeChangeControlM ids userId db li shipping note).changeRequests) := by
  refine ⟨crNumbers_range h orderId, ?_, ?_⟩
  · rw [crNumbers_range h orderId]
    exact List.nodup_range' 1 _ 1 (by norm_num)
  · intro ids userId db li shipping note hdb
    rw [(invokeChangeControlM_spec ids userId db li shipping note).1, hdb]
    refine CRStoreReachable.create crs _ h ?_
    simp [crCreated, hdb]

def sampleCR1 : ChangeRequest :=
  { id := 0, orderId := 42, entityId := 7, changeStatusId := 10,
    changeRequestNumber := 1, shippingCaptured := [], lineItemsCaptured := {},
    note := "" }

def sampleCR2 : ChangeRequest :=
  { id := 1, orderId := 42, entityId := 8, changeStatusId := 10,
    changeRequestNumber := 2, shippingCaptured := [], lineItemsCaptured := {},
    note := "" }

def sampleCRStore : List ChangeRequest := [sampleCR1, sampleCR2]

/-- C3 witness: the two-request store for order 42 is numbered `[1, 2]`. -/
theorem change_request_numbering_witness :
    changeRequestNumbersFor sampleCRStore 42 =
      List.range' 1 (crsForOrder sampleCRStore 42).length :=
  (change_request_numbering sampleCRStore 42
    (CRStoreReachable.create [sampleCR1] sampleCR2
      (CRStoreReachable.create [] sampleCR1 CRStoreReachable.empty (by decide))
      (by decide))).1

theorem filter_not_isEmpty_iff {α : Type} (p : α → Bool) (l : List α) :
    ((l.filter p).isEmpty = false) ↔ ∃ x ∈ l, p x = true := by
  rw [List.isEmpty_eq_false, ne_eq, List.filter_eq_nil_iff]
  push_neg
  simp

/-- C4 (amended): `canOrderBeCancelled` returns true iff every linked booking
request has the canceled booking status, every touched (created ≠ updated)
linked booking confirmation carries exactly the canceled status — a touched
confirmation with NO status counts as active and vetoes — and for every
touched shipment each live linking line item carries exactly the canceled
shipment status; in particular any linked booking request in a non-canceled
status forces false, and an order whose linked confirmations are untouched
(and shipments untouched, booking requests canceled) is cancellable. -/
theorem canOrderBeCancelled_characterization
    (ids : StatusIds) (db : DB) (orderId : Nat) :
    (canOrderBeCancelled ids db orderId = true ↔
      ((∀ br ∈ loadedBookingRequests db orderId,
          br.bookingStatusId = ids.bookingCanceledId) ∧
        (∀ bc ∈ db.bookingConfirmations, liveLinkExists db orderId bc.id = true →
          bc.createdAt ≠ bc.updatedAt → bc.statusId = some ids.bookingCanceledId) ∧
        (∀ sh ∈ db.shipments, sh.createdAt ≠ sh.updatedAt →
          ∀ li ∈ db.pgLineItems, li.targetId = sh.id → li.orderId = some orderId →
            li.deletedAt = none →
            li.shipmentStatusId = some ids.shipmentCanceledId))) ∧
    ((∃ br ∈ loadedBookingRequests db orderId,
        br.bookingStatusId ≠ ids.bookingCanceledId) →
      canOrderBeCancelled ids db orderId = false) ∧
    ((∀ br ∈ loadedBookingRequests db orderId,
        br.bookingStatusId = ids.bookingCanceledId) →
      (∀ bc ∈ db.bookingConfirmations, liveLinkExists db orderId bc.id = true →
        bc.createdAt = bc.updatedAt) →
      (∀ sh ∈ db.shipments, sh.createdAt = sh.updatedAt) →
      canOrderBeCancelled ids db orderId = true) := by
  have hiff : canOrderBeCancelled ids db orderId = true ↔
      ((∀ br ∈ loadedBookingRequests db orderId,
          br.bookingStatusId = ids.bookingCanceledId) ∧
        (∀ bc ∈ db.bookingConfirmations, liveLinkExists db orderId bc.id = true →
          bc.createdAt ≠ bc.updatedAt → bc.statusId = some ids.bookingCanceledId) ∧
        (∀ sh ∈ db.shipments, sh.createdAt ≠ sh.updatedAt →
          ∀ li ∈ db.pgLineItems, li.targetId = sh.id → li.orderId = some orderId →
            li.deletedAt = none →
            li.shipmentStatusId = some ids.shipmentCanceledId)) := by
    unfold canOrderBeCancelled
    split_ifs with h1 h2 h3
    · apply iff_of_false (by simp)
      rw [List.find?_isSome] at h1
      rcases h1 with ⟨br, hbr, hp⟩
      have hne : br.bookingStatusId ≠ ids.bookingCanceledId := by simpa using hp
      intro hr
      exact hne (hr.1 br hbr)
    · apply iff_of_false (by simp)
      rw [Bool.not_eq_true'] at h2
      rcases (filter_not_isEmpty_iff _ _).mp h2 with ⟨bc, hbc, hp⟩
      simp only [Bool.and_eq_true, bne_iff_ne, ne_eq] at hp
      intro hr
      exact hp.1.2 (hr.2.1 bc hbc hp.1.1 hp.2)
    · apply iff_of_false (by simp)
      rw [Bool.not_eq_true'] at h3
      rcases (filter_not_isEmpty_iff _ _).mp h3 with ⟨sh, hsh, hp⟩
      simp only [Bool.and_eq_true, bne_iff_ne, ne_eq] at hp
      have hex := hp.1
      unfold activeShipLinkExists at hex
      rw [List.any_eq_true] at hex
      rcases hex with ⟨li, hli, hq⟩
      simp only [Bool.and_eq_true, bne_iff_ne, beq_iff_eq, ne_eq] at hq
      intro hr
      exact hq.2 (hr.2.2 sh hsh hp.2 li hli hq.1.1.1 hq.1.1.2 hq.1.2)
    · apply iff_of_true rfl
      refine ⟨?_, ?_, ?_⟩
      · intro br hbr
        by_contra hne
        exact h1 (List.find?_isSome.mpr ⟨br, hbr, by simpa using hne⟩)
      · intro bc hbc hlive htouch
        by_contra hne
        apply h2
        rw [Bool.not_eq_true']
        apply (filter_not_isEmpty_iff _ _).mpr
        exact ⟨bc, hbc, by simp [hlive, htouch, hne]⟩
      · intro sh hsh htouch li hli hta ho hd
        by_contra hne
        apply h3
        rw [Bool.not_eq_true']
        apply (filter_not_isEmpty_iff _ _).mpr
        refine ⟨sh, hsh, ?_⟩
        have hact : activeShipLinkExists ids db orderId sh.id = true := by
          unfold activeShipLinkExists
          rw [List.any_eq_true]
          exact ⟨li, hli, by simp [hta, ho, hd, hne]⟩
        simp [hact, htouch]
  refine ⟨hiff, ?_, ?_⟩
  · rintro ⟨br, hbr, hne⟩
    cases hres : canOrderBeCancelled ids db orderId
    · rfl
    · exact absurd ((hiff.mp hres).1 br hbr) hne
  · intro hA hB hC
    apply hiff.mpr
    refine ⟨hA, ?_, ?_⟩
    · intro bc hbc hlive htouch
      exact absurd (hB bc hbc hlive) htouch
    · intro sh hsh htouch
      exact absurd (hC sh hsh) htouch

/-- State for the C4 counterexample: one booking confirmation linked to order
1 through a live line item, touched after creation (created 0 ≠ updated 1)
and carrying NO status. -/
def sampleDB4 : DB :=
  { order := { id := 1, buyerId := 1, orderStatusId := 1,
               isReadyForBooking := false, fields := [] }
    changeRequests := [], reviews := [], participants := [], lineItemIds := []
    rollups := []
    bookingRequests := []
    pgLineItems := [{ targetId := 10, orderId := some 1,
                      shipmentStatusId := none, deletedAt := none }]
    bookingConfirmations := [{ id := 10, statusId := none,
                               createdAt := 0, updatedAt := 1 }]
    shipments := []
    updateLog := [] }

/-- C4 counterexample: the claim's criterion (a touched linked confirmation
with no status is inert, so the order is cancellable) accepts this store, but
`canOrderBeCancelled` vetoes it — the SQL `!= :statusId OR IS NULL` branch
treats a NULL status as active. -/
theorem cancellation_null_status_counterexample :
    claimC4Cancellable sampleIds sampleDB4 1 = true ∧
    canOrderBeCancelled sampleIds sampleDB4 1 = false := by
  decide

/-- State for the C4 witness: same store, but the confirmation was never
touched after creation (created = updated). -/
def sampleDB4b : DB :=
  { order := { id := 1, buyerId := 1, orderStatusId := 1,
               isReadyForBooking := false, fields := [] }
    changeRequests := [], reviews := [], participants := [], lineItemIds := []
    rollups := []
    bookingRequests := []
    pgLineItems := [{ targetId := 10, orderId := some 1,
                      shipmentStatusId := none, deletedAt := none }]
    bookingConfirmations := [{ id := 10, statusId := none,
                               createdAt := 0, updatedAt := 0 }]
    shipments := []
    updateLog := [] }

/-- C4 witness: an order whose only linked booking confirmation is untouched
since creation is cancellable. -/
theorem canOrderBeCancelled_characterization_witness :
    canOrderBeCancelled sampleIds sampleDB4b 1 = true :=
  (canOrderBeCancelled_characterization sampleIds sampleDB4b 1).2.2
    (by decide) (by decide) (by decide)

/-- A row of the order-participants-rights view consulted by
`createOrderParticipants` (src/order/create.ts lines 44-49). -/
structure ParticipantRight where
  orgId : Nat
  participantId : Nat
  isAllowedToAcceptChangeRequest : Bool
deriving DecidableEq, Repr

def insertByPid (p : ParticipantRight) : List ParticipantRight → List ParticipantRight
  | [] => [p]
  | q :: qs => if p.participantId ≤ q.participantId then p :: q :: qs
               else q :: insertByPid p qs

/-- The ascending sort by participant id used as the fallback
(src/order/create.ts lines 59-61). -/
def sortByPid (l : List ParticipantRight) : List ParticipantRight :=
  l.foldr insertByPid []

/-- `createOrderParticipants`'s default-approver pick for one company
(src/order/create.ts lines 50-65): the first rights row of the company with
`isAllowedToAcceptChangeRequest` set, else — after sorting by participant
id — the company's first row; `none` (JS `undefined`) when the company has no
rows at all. -/
def pickDefaultApprover (rights : List ParticipantRight) (companyId : Nat) : Option Nat :=
  match rights.find? (fun p => p.orgId == companyId && p.isAllowedToAcceptChangeRequest) with
  | some p => some p.participantId
  | none => ((sortByPid rights).find? (fun p => p.orgId == companyId)).map
      (fun p => p.participantId)

/-- The JS `Set` of default approvers (src/order/create.ts lines 50-66): the
deduplication of a TWO-element array of possibly-undefined picks. -/
def defaultApprovers (rights : List ParticipantRight)
    (buyerOrgId supplierOrgId : Nat) : List (Option Nat) :=
  ([pickDefaultApprover rights buyerOrgId,
    pickDefaultApprover rights supplierOrgId]).dedup

/-- C8 (code bug): the empty-required-participant-set rejection
`if (defaultApprovers.size === 0) throw …` (src/order/create.ts lines 67-69)
can never fire — the set is built by mapping a two-element array, so its size
is at least 1 even when no participant-rights rows exist (it then holds only
`undefined`): with no rights rows the set is exactly `[none]`, the check
passes, and an order with an empty participant set only fails later, inside
the transaction, after the order row was already inserted. -/
theorem default_approver_check_never_fires :
    (∀ (rights : List ParticipantRight) (buyerOrgId supplierOrgId : Nat),
      (defaultApprovers rights buyerOrgId supplierOrgId).length ≠ 0) ∧
    defaultApprovers [] 1 2 = [none] := by
  constructor
  · intro rights b s
    unfold defaultApprovers
    simp [List.length_eq_zero, List.dedup_eq_nil]
  · decide

/-- Relational-store operations of the transaction-managed code paths:
begin/commit/rollback, connection release, entity writes. -/
inductive DbOp where
  | beginTx
  | commitTx
  | rollbackTx
  | releaseConn
  | write (entity : String)
deriving DecidableEq, Repr

def DbOp.isWrite : DbOp → Bool
  | DbOp.write _ => true
  | _ => false

/-- The writes attempted inside `createOrder`'s try block, in order
(src/order/create.ts lines 225-270). -/
def createOrderTxWrites (hasExtraData : Bool) : List String :=
  ["Order", "OrderParticipant"] ++
    (if hasExtraData then ["ExtraData"] else []) ++ ["OrderMilestone"]

/-- The operation trace of `createOrder`'s transactional block
(src/order/create.ts lines 223-278): begin, the try-block writes, commit and
release on success; when the write at index `failAt` throws, the catch rolls
the still-active transaction back and releases the connection. -/
def createOrderTrace (hasExtraData : Bool) (failAt : Option Nat) : List DbOp :=
  match failAt with
  | none => DbOp.beginTx ::
      ((createOrderTxWrites hasExtraData).map DbOp.write ++
        [DbOp.commitTx, DbOp.releaseConn])
  | some i => DbOp.beginTx ::
      (((createOrderTxWrites hasExtraData).take i).map DbOp.write ++
        [DbOp.rollbackTx, DbOp.releaseConn])

/-- The operation trace of `editOrderParticipants`' mutation phase
(src/order/edit-participants.ts lines 63-91): the delete of all existing
participants runs before any transaction; an empty proposed list returns
right after it; otherwise a transaction opens for the insert, and on an
insert failure the raised error skips commit, rollback and release alike. -/
def editOrderParticipantsTrace (proposedEmpty insertFails : Bool) : List DbOp :=
  DbOp.write "OrderParticipant.delete" ::
    (if proposedEmpty then []
     else if insertFails then [DbOp.beginTx]
     else [DbOp.beginTx, DbOp.write "OrderParticipant.insert",
           DbOp.commitTx, DbOp.releaseConn])

/-- The writes `invokeChangeControl` performs against the relational store, in
order (src/order/edit.ts lines 424-524); no queryRunner transaction appears
anywhere in the function. -/
def invokeChangeControlWriteList : List String :=
  ["Order.update", "OrderChangeRequest.insert", "OrderChangeReview.insert",
   "OrderChangeRequestLineItem.insert"]

/-- `invokeChangeControl`'s trace, with an optional failure index after which
the remaining inserts never run (and nothing is rolled back). -/
def invokeChangeControlTrace (failAt : Option Nat) : List DbOp :=
  match failAt with
  | none => invokeChangeControlWriteList.map DbOp.write
  | some i => (invokeChangeControlWriteList.take i).map DbOp.write

/-- After the opening `beginTx`, a conforming trace is writes only, then
commit or rollback, then the connection release as the final step. -/
def DbOp.endsClosed : List DbOp → Bool
  | [DbOp.commitTx, DbOp.releaseConn] => true
  | [DbOp.rollbackTx, DbOp.releaseConn] => true
  | DbOp.write _ :: rest => DbOp.endsClosed rest
  | _ => false

/-- Claim C9's shape for one logical operation: a single transaction opened
before any write, closed by commit or rollback, with the connection released
on that same exit path. -/
def singleTxWithRelease (t : List DbOp) : Bool :=
  match t with
  | DbOp.beginTx :: rest => DbOp.endsClosed rest
  | _ => false

theorem endsClosed_commit (ws : List String) :
    DbOp.endsClosed (ws.map DbOp.write ++ [DbOp.commitTx, DbOp.releaseConn]) = true := by
  induction ws with
  | nil => rfl
  | cons w ws ih => exact ih

theorem endsClosed_rollback (ws : List String) :
    DbOp.endsClosed (ws.map DbOp.write ++ [DbOp.rollbackTx, DbOp.releaseConn]) = true := by
  induction ws with
  | nil => rfl
  | cons w ws ih => exact ih

theorem all_map_write (l : List String) :
    (l.map DbOp.write).all DbOp.isWrite = true := by
  induction l with
  | nil => rfl
  | cons a as ih => simp [DbOp.isWrite, ih]

/-- C9 counterexample: change-request creation runs with no transaction at
all (its trace is writes only, never matching the single-transaction shape),
and the participant replacement both deletes outside the transaction and, on
a failed insert, ends without rollback or release. -/
theorem transaction_coverage_counterexample :
    singleTxWithRelease (invokeChangeControlTrace none) = false ∧
    singleTxWithRelease (editOrderParticipantsTrace false false) = false ∧
    (editOrderParticipantsTrace false true).contains DbOp.rollbackTx = false ∧
    (editOrderParticipantsTrace false true).contains DbOp.releaseConn = false := by
  decide

/-- C9 (amended): only `createOrder` wraps its writes in one transaction that
commits on success, rolls back on a failure at any write, and releases the
connection on both exits.  `editOrderParticipants` deletes the previous
participants before its transaction opens, so its trace never matches the
single-transaction shape, and a failed insert ends the run with neither
rollback nor release; `invokeChangeControl` issues all of its writes with no
transaction at all. -/
theorem transaction_coverage :
    (∀ (hasExtraData : Bool) (failAt : Option Nat),
      singleTxWithRelease (createOrderTrace hasExtraData failAt) = true) ∧
    (∀ proposedEmpty insertFails : Bool,
      (editOrderParticipantsTrace proposedEmpty insertFails).head? =
        some (DbOp.write "OrderParticipant.delete")) ∧
    (∀ insertFails : Bool,
      singleTxWithRelease (editOrderParticipantsTrace false insertFails) = false) ∧
    ((editOrderParticipantsTrace false true).contains DbOp.rollbackTx = false ∧
      (editOrderParticipantsTrace false true).contains DbOp.releaseConn = false) ∧
    (∀ failAt : Option Nat,
      (invokeChangeControlTrace failAt).all DbOp.isWrite = true) ∧
    (invokeChangeControlTrace none).contains DbOp.beginTx = false := by
  refine ⟨?_, ?_, ?_, by decide, ?_, by decide⟩
  · intro e failAt
    cases failAt with
    | none => exact endsClosed_commit (createOrderTxWrites e)
    | some i => exact endsClosed_rollback ((createOrderTxWrites e).take i)
  · intro pe inf
    rfl
  · intro inf
    rfl
  · intro failAt
    cases failAt with
    | none => exact all_map_write invokeChangeControlWriteList
    | some i => exact all_map_write (invokeChangeControlWriteList.take i)

/-- `editOrderParticipants`' effect on the stored participant set
(src/order/edit-participants.ts lines 53-97): after the guard (which
admin/staff/integration bypass), ALL existing participants are deleted; an
empty proposed list returns with the store already emptied; otherwise the
insert either succeeds or raises, and a raise leaves the store empty because
the delete has already been applied. -/
def editOrderParticipantsState (isAdminOrStaff isIntegration : Bool)
    (thisUserId : Nat) (current proposed : List Participant) (insertOk : Bool) :
    Option String × List Participant :=
  if (!isAdminOrStaff && !isIntegration &&
      !isAllowedToEditParticipants current proposed thisUserId) = true then
    (some "Unauthorized change controller modification", current)
  else if proposed.isEmpty then (none, [])
  else if insertOk then (none, proposed)
  else (some "Failed to create participants", [])

/-- C10: the delete of the existing participants precedes the insert
transaction — the operation trace begins with it, before any `beginTx` — and
once a run passes the authorization guard, a failed insert (or an empty
proposed list) leaves the order with zero participants instead of restoring
its previous participant set: the replacement is not atomic. -/
theorem participant_replacement_not_atomic
    (isAdminOrStaff isIntegration : Bool) (thisUserId : Nat)
    (current proposed : List Participant)
    (hguard : (!isAdminOrStaff && !isIntegration &&
      !isAllowedToEditParticipants current proposed thisUserId) = false) :
    ((editOrderParticipantsTrace proposed.isEmpty false).head? =
      some (DbOp.write "OrderParticipant.delete")) ∧
    (proposed.isEmpty = true →
      editOrderParticipantsState isAdminOrStaff isIntegration thisUserId
        current proposed true = (none, [])) ∧
    (proposed.isEmpty = false →
      editOrderParticipantsState isAdminOrStaff isIntegration thisUserId
        current proposed false = (some "Failed to create participants", [])) := by
  refine ⟨rfl, ?_, ?_⟩
  · intro hp
    unfold editOrderParticipantsState
    rw [hguard, hp]
    rfl
  · intro hp
    unfold editOrderParticipantsState
    rw [hguard, hp]
    rfl

/-- C10 witness: an admin run whose insert fails ends with zero participants
although one existed before. -/
theorem participant_replacement_not_atomic_witness :
    editOrderParticipantsState true false 7 [⟨1, true⟩] [⟨2, false⟩] false =
      (some "Failed to create participants", []) :=
  (participant_replacement_not_atomic true false 7 [⟨1, true⟩] [⟨2, false⟩]
    (by decide)).2.2 rfl
